import Mathlib

/-!
Verification development for the AguaRuta backend.

This file gives a shallow embedding of the pieces of the repository that the
specification talks about, and proves (or refutes) the specified properties:

* `sync_files_to_db` (main.py, lines 232-259): the bulk "files → DB" replace.
  It reads the Excel/CSV dataframe and overwrites the `rutas_activas` table:
  `TRUNCATE` followed by one `INSERT` per dataframe row, with `conn.commit()`
  only after the loop.  Per-row field conversions (`int(...)`, `float(...)`)
  happen inside the loop and raise on non-numeric strings.  psycopg2 runs the
  whole sequence in a single transaction that becomes visible only at
  `commit()`, so the committed table either is the full converted batch or is
  unchanged.  We model the dataframe row, the conversions, and the
  transactional run.

* `registrar_nuevo_punto` (routers/rutas_activas.py, lines 71-129): single
  point registration against the Excel store.  It groups the stored rows by
  vehicle, sums liters per vehicle, assigns the new point to the vehicle of
  `CAMIONES_VALIDOS` with the least total (Python `min` keeps the first
  minimum), always stores day `"LUNES"`, and appends the new row.

* `redistribuir_puntos` (routers/redistribucion.py, lines 42-63): for each
  input row, picks a random vehicle from the fixed list and stores it under
  the key `camion_asignado`, keeping every other field.  Randomness is
  modelled by an oracle of indices into the vehicle list, which is exactly
  the guarantee `random.choice` gives.

* `jwt_encode` / `jwt_decode` (main.py, lines 132-160): token encoding with
  the repository's own urlsafe-base64 helpers `_b64e` / `_b64d`, which we
  embed concretely over byte lists.  `json.dumps` / `json.loads` and the
  HMAC-SHA256 digest are external library collaborators; they enter the
  embedding as function parameters (`dumps`, `loads`, `mac`), with the
  library contracts as hypotheses where a theorem needs them.

Cells of a pandas dataframe are modelled by `Cell`: a missing value (`NaN`),
a numeric value (as a rational; the claims under study never depend on
floating-point rounding), or a string.
-/

namespace AguaRuta

/-- A pandas dataframe cell: `NaN`/missing, a number, or a string. -/
inductive Cell where
  | nan : Cell
  | num (q : ℚ) : Cell
  | str (s : String) : Cell
deriving DecidableEq, Repr

/-- Python `pd.notna` on a cell: `False` exactly on the missing value. -/
def pdNotna : Cell → Bool
  | .nan => false
  | _ => true

/-- Digits-to-number accumulator used by the Python literal parsers. -/
def natOfDigits (cs : List Char) : Nat :=
  cs.foldl (fun a c => a * 10 + (c.toNat - 48)) 0

/-- Strip leading and trailing spaces from a character list. -/
def trimSpaces (cs : List Char) : List Char :=
  ((cs.dropWhile (· = ' ')).reverse.dropWhile (· = ' ')).reverse

/-- Python `int(s)` on a string: optional surrounding whitespace, optional
sign, then a non-empty run of decimal digits; anything else raises
(`ValueError`), modelled as `none`.  (Python also accepts `_` digit group
separators; those never occur in the inputs considered here.) -/
def parseIntPy (s : String) : Option Int :=
  match trimSpaces s.data with
  | [] => none
  | '-' :: ds =>
      if ds ≠ [] ∧ ds.all Char.isDigit then some (-(natOfDigits ds : Int)) else none
  | '+' :: ds =>
      if ds ≠ [] ∧ ds.all Char.isDigit then some (natOfDigits ds : Int) else none
  | ds =>
      if ds.all Char.isDigit then some (natOfDigits ds : Int) else none

/-- Python `float(s)` on a string: optional sign, digits with an optional
decimal point (`"12."` and `".5"` are accepted).  Exponents and the special
words `inf`/`nan` are not modelled; the code under study never feeds them. -/
def parseRatPy (s : String) : Option ℚ :=
  let core : List Char → Option ℚ := fun cs =>
    let intPart := cs.takeWhile Char.isDigit
    let rest := cs.dropWhile Char.isDigit
    match rest with
    | [] => if intPart ≠ [] then some (natOfDigits intPart : ℚ) else none
    | '.' :: frac =>
        if frac.all Char.isDigit ∧ (intPart ≠ [] ∨ frac ≠ []) then
          some ((natOfDigits intPart : ℚ) +
            (natOfDigits frac : ℚ) / ((10 : ℚ) ^ frac.length))
        else none
    | _ => none
  match trimSpaces s.data with
  | '-' :: cs => (core cs).map (fun q => -q)
  | '+' :: cs => core cs
  | cs => core cs

/-- Truncation toward zero, as Python `int()` applied to a number. -/
def truncRat (q : ℚ) : Int := q.num.tdiv (q.den : Int)

/-- Python `int(cell)`: truncates a number toward zero, parses a string as an
integer literal, raises (`none`) otherwise.  (`int` of the missing value
raises as well; the callers below always guard with `pd.notna` first.) -/
def pyInt : Cell → Option Int
  | .num q => some (truncRat q)
  | .str s => parseIntPy s
  | .nan => none

/-- Python `float(cell)`. -/
def pyFloat : Cell → Option ℚ
  | .num q => some q
  | .str s => parseRatPy s
  | .nan => none

/-! ## Bulk replace: `sync_files_to_db` (main.py 232-259)

A dataframe row of `rutas_activas.xlsx` / `.csv` carries the columns
`RUTAS_COLUMNS`; the `id` column is read from the file but is not inserted
(the DB assigns fresh serial ids after `RESTART IDENTITY`), so it is not part
of the stored-row model. -/

/-- One row of the Excel/CSV dataframe, fields as raw cells. -/
structure FileRow where
  camion : Cell
  nombre : Cell
  dia : Cell
  litros : Cell
  telefono : Cell
  latitud : Cell
  longitud : Cell
deriving DecidableEq, Repr

/-- One committed row of the `rutas_activas` table (minus the serial id and
timestamps): `litros_entrega` is an integer or SQL NULL, coordinates are
doubles or SQL NULL, the text columns keep the raw cell. -/
structure DbRow where
  camion : Cell
  nombre : Cell
  dia : Cell
  litros : Option Int
  telefono : Cell
  latitud : Option ℚ
  longitud : Option ℚ
deriving DecidableEq, Repr

/-- Conversion `int(r.get("litros")) if pd.notna(r.get("litros")) else None`:
`NaN` becomes SQL NULL, a non-numeric string raises (`Except.error`). -/
def convLitros (c : Cell) : Except Unit (Option Int) :=
  if pdNotna c then
    match pyInt c with
    | some n => .ok (some n)
    | none => .error ()
  else .ok none

/-- Conversion `float(r.get(col)) if pd.notna(r.get(col)) else None` for a coordinate. -/
def convCoord (c : Cell) : Except Unit (Option ℚ) :=
  if pdNotna c then
    match pyFloat c with
    | some q => .ok (some q)
    | none => .error ()
  else .ok none

/-- Conversion of one dataframe row into the inserted tuple, in the
evaluation order of the `INSERT` argument tuple; the first failing
conversion aborts the call. -/
def convRow (r : FileRow) : Except Unit DbRow := do
  let l ← convLitros r.litros
  let la ← convCoord r.latitud
  let lo ← convCoord r.longitud
  .ok ⟨r.camion, r.nombre, r.dia, l, r.telefono, la, lo⟩

/-- The conversion pass of the insert loop: rows in order, first failure
aborts. -/
def convRows : List FileRow → Except Unit (List DbRow)
  | [] => .ok []
  | r :: rest => do
      let c ← convRow r
      let cs ← convRows rest
      .ok (c :: cs)

/-- Function `sync_files_to_db`, DB mode, against a committed table `committed`.

The function executes `TRUNCATE rutas_activas RESTART IDENTITY` and then one
`INSERT` per dataframe row, all on one psycopg2 connection, and calls
`conn.commit()` only after the loop; a conversion error inside the loop
raises out of the function before `commit`, so the open transaction is never
committed and the committed table stays as it was.  The result is the new
committed table paired with the returned row count (`len(df)`), or the
pre-call table paired with the raised error. -/
def sync_files_to_db (committed : List DbRow) (df : List FileRow) :
    List DbRow × Except Unit Nat :=
  match convRows df with
  | .ok rows => (rows, .ok df.length)
  | .error e => (committed, .error e)

/-! ## Single-point registration: `registrar_nuevo_punto`
(routers/rutas_activas.py 71-129)

The endpoint loads `base_datos_todos_con_coordenadas.xlsx`, runs
`df.fillna("")`, resolves the column names through the alias machinery
(`find_col`/`norm`), and works on the canonical columns.  We model the store
as the list of its rows under those canonical columns; an empty cell (the
`""` that `fillna` leaves) is modelled by `none` for coordinates and by `""`
for text columns.  The liters column holds numbers in every store the claims
quantify over (a non-numeric liters cell would make `groupby(...).sum()` or
the `min` key comparison raise and the endpoint answer 500 before assigning
anything). -/

/-- A row of the registration store under its canonical columns. -/
structure PuntoRow where
  id_camion : String
  patente : String
  conductor : String
  dia : String
  nombre : String
  telefono : String
  sector : String
  litros : Int
  latitud : Option ℚ
  longitud : Option ℚ
deriving DecidableEq, Repr

/-- The body of the incoming `punto` JSON dict.  The endpoint reads
`nombre`, `litros`, `latitud`, `longitud` and (with `""` defaults)
`telefono`, `sector`; a `dia` or `camion` key sent by the caller is never
read, which the unused fields record. -/
structure Punto where
  nombre : String
  litros : Int
  latitud : ℚ
  longitud : ℚ
  telefono : Option String
  sector : Option String
  dia : Option String
  camion : Option String
deriving DecidableEq, Repr

/-- The list `CAMIONES_VALIDOS` (routers/rutas_activas.py line 15). -/
def CAMIONES_VALIDOS : List String := ["A1", "A2", "A3", "A4", "A5", "M1", "M2"]

/-- The total `df.groupby(id_camion_col)[litros_col].sum()` read through `.get(c, 0)`:
total liters of the stored rows assigned to vehicle `c` (0 when no row is). -/
def resumen (df : List PuntoRow) (c : String) : Int :=
  ((df.filter (fun r => r.id_camion = c)).map PuntoRow.litros).sum

/-- The `key=lambda c: resumen.get(c, 0) if resumen else 0` of the `min`
call: the per-vehicle total, except that with an empty store the groupby
dict is empty and the key is constantly 0. -/
def asignarKey (df : List PuntoRow) (c : String) : Int :=
  if df.isEmpty then 0 else resumen df c

/-- Python `min(xs, key=key)` on a non-empty list: scan keeping the current
best, replacing it only on a strictly smaller key, so the first minimum
wins. -/
def pyMin (key : String → Int) : List String → String
  | [] => ""
  | c :: rest => rest.foldl (fun best x => if key x < key best then x else best) c

/-- Endpoint `registrar_nuevo_punto` on a store `df` whose columns all exist (so no
columns are created): assigns the least-loaded valid vehicle, fixes the day
to `"LUNES"`, builds the new row and appends it.  Returns the
`camion_asignado` of the response together with the rewritten store. -/
def registrar_nuevo_punto (df : List PuntoRow) (punto : Punto) :
    String × List PuntoRow :=
  let asignar_a := pyMin (asignarKey df) CAMIONES_VALIDOS
  let dia_val := "LUNES"
  let nuevo : PuntoRow :=
    { id_camion := asignar_a
      patente := ""
      conductor := ""
      dia := dia_val
      nombre := punto.nombre
      telefono := punto.telefono.getD ""
      sector := punto.sector.getD ""
      litros := punto.litros
      latitud := some punto.latitud
      longitud := some punto.longitud }
  (asignar_a, df ++ [nuevo])

/-! The specification describes this endpoint as a nearest-neighbour
assigner.  No haversine or distance scan exists anywhere in the repository;
to state that part of the specification at all we model it from the spec's
own words. -/

/-- Modelled from the spec: the haversine great-circle distance in km,
`d = 2·R·asin(√(sin²(Δφ/2) + cos φ1 · cos φ2 · sin²(Δλ/2)))` with
`R = 6371.0` and degree inputs converted to radians.  No such function
exists in the source. -/
noncomputable def haversineKm (lat1 lon1 lat2 lon2 : ℝ) : ℝ :=
  let rad : ℝ → ℝ := fun x => x * Real.pi / 180
  let dphi := rad lat2 - rad lat1
  let dlam := rad lon2 - rad lon1
  2 * 6371 * Real.arcsin (Real.sqrt
    (Real.sin (dphi / 2) ^ 2 +
      Real.cos (rad lat1) * Real.cos (rad lat2) * Real.sin (dlam / 2) ^ 2))

/-- Modelled from the spec: the candidate stored points of the
nearest-neighbour scan, "every existing stored point having both vehicle
code and coordinates". -/
def specCandidatos (df : List PuntoRow) : List PuntoRow :=
  df.filter (fun r => r.id_camion ≠ "" ∧ r.latitud.isSome ∧ r.longitud.isSome)

/-- Modelled from the spec: the nearest candidate to `(lat, lon)` by
haversine distance, ties broken by input order via strict less-than. -/
noncomputable def specNearest (df : List PuntoRow) (lat lon : ℚ) :
    Option PuntoRow :=
  match specCandidatos df with
  | [] => none
  | c :: rest => some (rest.foldl
      (fun best r =>
        if haversineKm (r.latitud.getD 0 : ℚ) (r.longitud.getD 0 : ℚ) lat lon <
            haversineKm (best.latitud.getD 0 : ℚ) (best.longitud.getD 0 : ℚ) lat lon
        then r else best) c)

/-! ## Bulk redistribution: `redistribuir_puntos`
(routers/redistribucion.py 42-63)

Rows of `Puntos_Nuevos_Consolidados.xlsx` become dicts (`row.to_dict()`)
keyed by the normalized column names; we model a dict as an association list
of `(key, cell)` pairs.  `random.choice(camiones_disponibles)` is modelled
by an oracle of indices into the list, which is exactly the guarantee
`random.choice` gives. -/

/-- A dataframe row as the dict `row.to_dict()`. -/
abbrev Rec : Type := List (String × Cell)

/-- Python dict assignment `d[k] = v`: overwrite the entry in place when the
key exists, append it otherwise. -/
def setKey : Rec → String → Cell → Rec
  | [], k, v => [(k, v)]
  | kv :: t, k, v => if kv.1 = k then (k, v) :: t else kv :: setKey t k v

/-- Python dict read `d.get(k)`. -/
def getVal : Rec → String → Option Cell
  | [], _ => none
  | kv :: t, k => if kv.1 = k then some kv.2 else getVal t k

/-- The list `camiones_disponibles` (routers/redistribucion.py line 52). -/
def camiones_disponibles : List String := ["A1", "A2", "A3", "A4", "A5", "M1", "M2"]

/-- The per-row loop of `redistribuir_puntos`, with `i` the index the
randomness oracle is consulted at. -/
def redistribuirAux (pick : Nat → Fin camiones_disponibles.length)
    (i : Nat) : List Rec → List Rec
  | [] => []
  | r :: rest =>
      setKey r "camion_asignado" (.str (camiones_disponibles.get (pick i))) ::
        redistribuirAux pick (i + 1) rest

/-- Endpoint `redistribuir_puntos`: every row receives a randomly chosen vehicle
under `camion_asignado`; the list of augmented dicts is returned. -/
def redistribuir_puntos (pick : Nat → Fin camiones_disponibles.length)
    (df : List Rec) : List Rec :=
  redistribuirAux pick 0 df

/-! ## JWT helpers: `_b64e`, `_b64d`, `jwt_encode`, `jwt_decode`
(main.py 132-160)

Byte strings are lists of naturals (< 256 for genuine bytes).  `_b64e` and
`_b64d` are the repository's own urlsafe-base64 helpers and are embedded
concretely.  `json.dumps`/`json.loads` and the HMAC-SHA256 digest are
library collaborators and enter as parameters. -/

/-- The urlsafe base64 alphabet, index 0-63 to byte.  (Arguments ≥ 64 do not
arise; the final branch returns `_` for them.) -/
def b64Tbl (n : Nat) : Nat :=
  if n < 26 then 65 + n
  else if n < 52 then 97 + (n - 26)
  else if n < 62 then 48 + (n - 52)
  else if n = 62 then 45
  else 95

/-- Inverse of the urlsafe base64 alphabet: byte to index, `none` outside
the alphabet. -/
def b64Inv (c : Nat) : Option Nat :=
  if 65 ≤ c ∧ c ≤ 90 then some (c - 65)
  else if 97 ≤ c ∧ c ≤ 122 then some (c - 97 + 26)
  else if 48 ≤ c ∧ c ≤ 57 then some (c - 48 + 52)
  else if c = 45 then some 62
  else if c = 95 then some 63
  else none

/-- Helper `_b64e`: urlsafe base64 with the `=` padding stripped (the source
encodes with padding and `rstrip`s it; we produce the unpadded form
directly). -/
def b64e : List Nat → List Nat
  | [] => []
  | [a] => [b64Tbl (a / 4), b64Tbl (a % 4 * 16)]
  | [a, b] => [b64Tbl (a / 4), b64Tbl (a % 4 * 16 + b / 16), b64Tbl (b % 16 * 4)]
  | a :: b :: c :: rest =>
      b64Tbl (a / 4) :: b64Tbl (a % 4 * 16 + b / 16) ::
        b64Tbl (b % 16 * 4 + c / 64) :: b64Tbl (c % 64) :: b64e rest

/-- Base64 decoding of a padded string, quad by quad: `=` is accepted only
as trailing padding (one or two characters) of the last quad, and any byte
outside the alphabet is an error.  (CPython's non-strict decoder instead
discards foreign bytes before decoding; the difference can only show on
hand-crafted tokens that already fail the signature check.) -/
def b64DecPadded : List Nat → Option (List Nat)
  | [] => some []
  | c1 :: c2 :: c3 :: c4 :: rest =>
      match b64Inv c1, b64Inv c2 with
      | some a, some b =>
          if c3 = 61 then
            if c4 = 61 ∧ rest = [] then some [a * 4 + b / 16] else none
          else
            match b64Inv c3 with
            | some c =>
                if c4 = 61 then
                  if rest = [] then some [a * 4 + b / 16, b % 16 * 16 + c / 4]
                  else none
                else
                  match b64Inv c4 with
                  | some d =>
                      (b64DecPadded rest).map
                        (fun t => (a * 4 + b / 16) :: (b % 16 * 16 + c / 4) ::
                          (c % 4 * 64 + d) :: t)
                  | none => none
            | none => none
      | _, _ => none
  | _ => none

/-- Helper `_b64d`: re-append the stripped `=` padding (byte 61), then decode. -/
def b64d (s : List Nat) : Option (List Nat) :=
  b64DecPadded (s ++ List.replicate ((4 - s.length % 4) % 4) 61)

/-- A JSON scalar as it occurs in the token payloads. -/
inductive JVal where
  | jstr (s : String) : JVal
  | jnum (n : Int) : JVal
deriving DecidableEq, Repr

/-- A JSON object payload: a dict, keys unique by construction of the
callers. -/
abbrev Payload : Type := List (String × JVal)

/-- Reading `payload.get(k)` as first-occurrence association lookup. -/
def plookup (p : Payload) (k : String) : Option JVal :=
  match p.find? (fun kv => kv.1 = k) with
  | some kv => some kv.2
  | none => none

/-- Constant `JWT_EXP_MIN` (env default `"720"`). -/
def JWT_EXP_MIN : Int := 720

/-- The `p = payload.copy(); if "exp" not in p: p["exp"] = ...` step of
`jwt_encode`, with `tEnc` the integer `utcnow().timestamp()` at encoding
time. -/
def withExp (tEnc : Int) (p : Payload) : Payload :=
  if (plookup p "exp").isSome then p
  else p ++ [("exp", .jnum (tEnc + 60 * JWT_EXP_MIN))]

/-- Reading `int(payload.get("exp", 0))`: missing defaults to 0, a string is parsed
as an integer literal (raising, i.e. `none`, when unparsable). -/
def pyExpInt (p : Payload) : Option Int :=
  match plookup p "exp" with
  | none => some 0
  | some (.jnum n) => some n
  | some (.jstr s) => parseIntPy s

/-- The UTF-8 bytes of `json.dumps({"alg":"HS256","typ":"JWT"}, separators=(",",":"))`. -/
def headerBytes : List Nat :=
  "\x7b\"alg\":\"HS256\",\"typ\":\"JWT\"\x7d".toUTF8.toList.map UInt8.toNat

/-- Splitting `token.split(".")` over byte lists (46 is `.`). -/
def splitDots : List Nat → List (List Nat)
  | [] => [[]]
  | c :: rest =>
      if c = 46 then [] :: splitDots rest
      else
        match splitDots rest with
        | [] => [[c]]
        | p :: ps => (c :: p) :: ps

/-- Function `jwt_encode`, with the JSON serializer `dumps` and the keyed
HMAC-SHA256 digest `mac` (the secret is fixed inside `mac`) as library
parameters and `tEnc` the current integer timestamp. -/
def jwt_encode (dumps : Payload → List Nat) (mac : List Nat → List Nat)
    (tEnc : Int) (payload : Payload) : List Nat :=
  let p := withExp tEnc payload
  let h_b64 := b64e headerBytes
  let p_b64 := b64e (dumps p)
  let sig := mac (h_b64 ++ 46 :: p_b64)
  h_b64 ++ 46 :: p_b64 ++ 46 :: b64e sig

/-- Function `jwt_decode`, with the JSON parser `loads` (composed with the UTF-8
`.decode()`, so invalid bytes give `none`) and the digest `mac` as library
parameters and `tDec` the current integer timestamp.  Every raise inside the
source's `try` — bad split, bad base64, failed `compare_digest`, bad JSON,
bad `exp`, expiry — is caught and re-raised as the HTTP 401, modelled as
`Except.error`. -/
def jwt_decode (loads : List Nat → Option Payload) (mac : List Nat → List Nat)
    (tDec : Int) (token : List Nat) : Except Unit Payload :=
  match splitDots token with
  | [h_b64, p_b64, s_b64] =>
      let sig_check := mac (h_b64 ++ 46 :: p_b64)
      match b64d s_b64 with
      | none => .error ()
      | some sig =>
          if sig_check = sig then
            match b64d p_b64 with
            | none => .error ()
            | some pbytes =>
                match loads pbytes with
                | none => .error ()
                | some payload =>
                    match pyExpInt payload with
                    | none => .error ()
                    | some e => if tDec > e then .error () else .ok payload
          else .error ()
  | _ => .error ()

/-! ## Lemmas about the bulk replace -/

theorem exbind_error {α β : Type} (f : α → Except Unit β) :
    ((Except.error () : Except Unit α) >>= f) = .error () := rfl

theorem exbind_ok {α β : Type} (a : α) (f : α → Except Unit β) :
    ((Except.ok a : Except Unit α) >>= f) = f a := rfl

theorem convRows_nil : convRows [] = .ok [] := rfl

theorem convRows_cons (r : FileRow) (rest : List FileRow) :
    convRows (r :: rest) =
      (convRow r >>= fun c => convRows rest >>= fun cs => .ok (c :: cs)) := rfl

/-- One bad row anywhere in the batch makes the whole conversion pass
fail. -/
theorem convRows_error_of_mem {df : List FileRow} {r : FileRow}
    (hr : r ∈ df) (he : convRow r = .error ()) : convRows df = .error () := by
  induction df with
  | nil => cases hr
  | cons x xs ih =>
      rcases List.mem_cons.mp hr with rfl | hmem
      · rw [convRows_cons, he, exbind_error]
      · rw [convRows_cons]
        cases hx : convRow x with
        | error e => cases e; rw [exbind_error]
        | ok c => rw [exbind_ok, ih hmem, exbind_error]

/-- A successful conversion keeps the text columns of each row unchanged. -/
theorem convRow_ok_fields {r : FileRow} {c : DbRow} (h : convRow r = .ok c) :
    c.camion = r.camion ∧ c.nombre = r.nombre ∧ c.dia = r.dia ∧
      c.telefono = r.telefono := by
  unfold convRow at h
  cases h1 : convLitros r.litros with
  | error e => rw [h1] at h; cases h
  | ok l =>
      rw [h1] at h
      cases h2 : convCoord r.latitud with
      | error e => rw [h2] at h; cases h
      | ok la =>
          rw [h2] at h
          cases h3 : convCoord r.longitud with
          | error e => rw [h3] at h; cases h
          | ok lo =>
              rw [h3] at h
              cases h
              exact ⟨rfl, rfl, rfl, rfl⟩

/-- C2 (amended): after a bulk replace whose conversions succeed, the
committed table is exactly the converted batch, whatever was stored before;
in particular every pre-existing row not in the batch — protected vehicle or
not — is gone.  There is no `preserve_protected` flag in the code. -/
theorem sync_bulk_replace_drops_preexisting_rows
    (committed : List DbRow) (df : List FileRow) (rows : List DbRow)
    (h : convRows df = .ok rows) :
    (sync_files_to_db committed df).1 = rows ∧
      ∀ r ∈ committed, r ∉ rows → r ∉ (sync_files_to_db committed df).1 := by
  unfold sync_files_to_db
  rw [h]
  exact ⟨rfl, fun r _ hr => hr⟩

theorem sync_bulk_replace_drops_preexisting_rows_witness :
    (sync_files_to_db
        [⟨.str "M3", .str "Protegido", .str "LUNES", some 10, .nan, none, none⟩]
        [⟨.str "A1", .str "Juan", .str "LUNES", .num 100, .nan, .num 1, .num 2⟩]).1 =
      [⟨.str "A1", .str "Juan", .str "LUNES", some 100, .nan, some 1, some 2⟩] ∧
      ∀ r ∈ [(⟨.str "M3", .str "Protegido", .str "LUNES", some 10, .nan, none, none⟩ : DbRow)],
        r ∉ [(⟨.str "A1", .str "Juan", .str "LUNES", some 100, .nan, some 1, some 2⟩ : DbRow)] →
        r ∉ (sync_files_to_db
          [⟨.str "M3", .str "Protegido", .str "LUNES", some 10, .nan, none, none⟩]
          [⟨.str "A1", .str "Juan", .str "LUNES", .num 100, .nan, .num 1, .num 2⟩]).1 :=
  sync_bulk_replace_drops_preexisting_rows _ _ _ (by rfl)

/-- C2 counterexample: a pre-existing row of the protected vehicle `M3` does
not survive a bulk replace — the claim "every protected row that existed
before the replace exists afterward with identical field values" fails on
this input. -/
theorem protected_rows_not_preserved_cex :
    (⟨.str "M3", .str "Protegido", .str "LUNES", some 10, .nan, none, none⟩ : DbRow) ∈
      [(⟨.str "M3", .str "Protegido", .str "LUNES", some 10, .nan, none, none⟩ : DbRow)] ∧
    (⟨.str "M3", .str "Protegido", .str "LUNES", some 10, .nan, none, none⟩ : DbRow) ∉
      (sync_files_to_db
        [⟨.str "M3", .str "Protegido", .str "LUNES", some 10, .nan, none, none⟩]
        [⟨.str "A1", .str "Juan", .str "LUNES", .num 100, .nan, .num 1, .num 2⟩]).1 := by
  constructor
  · exact List.mem_singleton.mpr rfl
  · decide

/-- C3 (amended): an empty batch is applied like any other — the store is
truncated to the empty table and the call returns 0 imported rows.  There is
no `replace_only_if_nonempty` guard and no `ok` flag in the code. -/
theorem sync_empty_batch_clears_store (committed : List DbRow) :
    sync_files_to_db committed [] = ([], .ok 0) := rfl

/-- C3 counterexample: with a non-empty store and an empty batch the live
store does not stay untouched (the claim) — it is wiped, and the result is a
plain `0` row count, not an `ok=false` report. -/
theorem nonempty_guard_absent_cex :
    sync_files_to_db [⟨.str "A2", .str "Ana", .str "MARTES", some 20, .nan, none, none⟩]
        [] = ([], .ok 0) ∧
    [(⟨.str "A2", .str "Ana", .str "MARTES", some 20, .nan, none, none⟩ : DbRow)] ≠
      ([] : List DbRow) := by
  exact ⟨rfl, by decide⟩

/-- C4 (amended): two batch rows that share a household name but disagree on
(vehicle, day) are both inserted verbatim, in batch order; no merging happens
and no conflict is recorded — the stored table can hold several rows of the
same name with different assignments. -/
theorem duplicate_names_both_inserted
    (committed : List DbRow) (r1 r2 : FileRow) (c1 c2 : DbRow)
    (h1 : convRow r1 = .ok c1) (h2 : convRow r2 = .ok c2)
    (hname : r1.nombre = r2.nombre) :
    (sync_files_to_db committed [r1, r2]).1 = [c1, c2] ∧
      c1.nombre = c2.nombre := by
  have hf1 := convRow_ok_fields h1
  have hf2 := convRow_ok_fields h2
  constructor
  · unfold sync_files_to_db
    rw [convRows_cons, h1, exbind_ok, convRows_cons, h2, exbind_ok,
      convRows_nil, exbind_ok, exbind_ok]
  · rw [hf1.2.1, hf2.2.1, hname]

theorem duplicate_names_both_inserted_witness :
    (sync_files_to_db []
        [⟨.str "A1", .str "Juan", .str "LUNES", .num 100, .nan, .nan, .nan⟩,
         ⟨.str "A2", .str "Juan", .str "MARTES", .num 50, .nan, .nan, .nan⟩]).1 =
      [⟨.str "A1", .str "Juan", .str "LUNES", some 100, .nan, none, none⟩,
       ⟨.str "A2", .str "Juan", .str "MARTES", some 50, .nan, none, none⟩] ∧
    (⟨.str "A1", .str "Juan", .str "LUNES", some 100, .nan, none, none⟩ : DbRow).nombre =
      (⟨.str "A2", .str "Juan", .str "MARTES", some 50, .nan, none, none⟩ : DbRow).nombre :=
  duplicate_names_both_inserted [] _ _ _ _ (by rfl) (by rfl) (by rfl)

/-- C4 counterexample: the final store for a batch with a duplicated
household name holds two rows of that name with different (vehicle, day)
pairs, refuting "each household name maps to exactly one (vehicle, day) pair
in the stored set" (and no `AssignmentConflict` value exists anywhere to be
recorded). -/
theorem assignment_conflict_not_detected_cex :
    (sync_files_to_db []
        [⟨.str "A1", .str "Juan", .str "LUNES", .num 100, .nan, .nan, .nan⟩,
         ⟨.str "A2", .str "Juan", .str "MARTES", .num 50, .nan, .nan, .nan⟩]).1 =
      [⟨.str "A1", .str "Juan", .str "LUNES", some 100, .nan, none, none⟩,
       ⟨.str "A2", .str "Juan", .str "MARTES", some 50, .nan, none, none⟩] ∧
    (⟨.str "A1", .str "Juan", .str "LUNES", some 100, .nan, none, none⟩ : DbRow).nombre =
      (⟨.str "A2", .str "Juan", .str "MARTES", some 50, .nan, none, none⟩ : DbRow).nombre ∧
    ((⟨.str "A1", .str "Juan", .str "LUNES", some 100, .nan, none, none⟩ : DbRow).camion,
        (⟨.str "A1", .str "Juan", .str "LUNES", some 100, .nan, none, none⟩ : DbRow).dia) ≠
      ((⟨.str "A2", .str "Juan", .str "MARTES", some 50, .nan, none, none⟩ : DbRow).camion,
        (⟨.str "A2", .str "Juan", .str "MARTES", some 50, .nan, none, none⟩ : DbRow).dia) := by
  exact ⟨rfl, rfl, by decide⟩

/-- C5 (amended): a row whose liters cell is a non-numeric string makes the
whole call raise: the batch is halted, nothing (not even the valid rows) is
stored, and an error — not a report with per-reason counters — comes back. -/
theorem invalid_row_halts_batch
    (committed : List DbRow) (df : List FileRow) (r : FileRow)
    (hr : r ∈ df) (he : convRow r = .error ()) :
    (sync_files_to_db committed df).2 = .error () ∧
      (sync_files_to_db committed df).1 = committed := by
  unfold sync_files_to_db
  rw [convRows_error_of_mem hr he]
  exact ⟨rfl, rfl⟩

theorem invalid_row_halts_batch_witness :
    (sync_files_to_db []
        [⟨.str "A1", .str "Ana", .str "LUNES", .num 30, .nan, .nan, .nan⟩,
         ⟨.str "A2", .str "Juan", .str "LUNES", .str "abc", .nan, .nan, .nan⟩,
         ⟨.str "A3", .str "Rosa", .str "LUNES", .num 40, .nan, .nan, .nan⟩]).2 =
      .error () ∧
    (sync_files_to_db []
        [⟨.str "A1", .str "Ana", .str "LUNES", .num 30, .nan, .nan, .nan⟩,
         ⟨.str "A2", .str "Juan", .str "LUNES", .str "abc", .nan, .nan, .nan⟩,
         ⟨.str "A3", .str "Rosa", .str "LUNES", .num 40, .nan, .nan, .nan⟩]).1 = [] :=
  invalid_row_halts_batch [] _
    ⟨.str "A2", .str "Juan", .str "LUNES", .str "abc", .nan, .nan, .nan⟩
    (by decide) (by rfl)

/-- C5 counterexample: in a batch of three rows whose middle row has
non-numeric liters, the two valid rows are not processed and no report is
returned — the call errors out with the store untouched, refuting "the
invalid row is skipped and counted by reason, the batch is never halted". -/
theorem invalid_row_not_skipped_cex :
    sync_files_to_db []
        [⟨.str "A1", .str "Ana", .str "LUNES", .num 30, .nan, .nan, .nan⟩,
         ⟨.str "A2", .str "Juan", .str "LUNES", .str "abc", .nan, .nan, .nan⟩,
         ⟨.str "A3", .str "Rosa", .str "LUNES", .num 40, .nan, .nan, .nan⟩] =
      ([], .error ()) := rfl

/-- C6 (confirmed): the bulk replace is transactional.  Each call either
fails with the committed table exactly as before (the `TRUNCATE` and the
partial inserts live only in the never-committed psycopg2 transaction), or
succeeds with the committed table exactly the fully converted batch; no
intermediate table is ever committed. -/
theorem sync_transaction_atomic (committed : List DbRow) (df : List FileRow) :
    ((sync_files_to_db committed df).2 = .error () →
      (sync_files_to_db committed df).1 = committed) ∧
    (∀ n, (sync_files_to_db committed df).2 = .ok n →
      ∃ rows, convRows df = .ok rows ∧ (sync_files_to_db committed df).1 = rows) := by
  unfold sync_files_to_db
  cases h : convRows df with
  | ok rows => exact ⟨fun hc => Except.noConfusion hc, fun n _ => ⟨rows, rfl, rfl⟩⟩
  | error e => cases e; exact ⟨fun _ => rfl, fun n hn => Except.noConfusion hn⟩

theorem sync_transaction_atomic_witness :
    ((sync_files_to_db
        [⟨.str "A4", .str "Eva", .str "JUEVES", some 15, .nan, none, none⟩]
        [⟨.str "A1", .str "Ana", .str "LUNES", .str "abc", .nan, .nan, .nan⟩]).2 =
      .error () →
      (sync_files_to_db
        [⟨.str "A4", .str "Eva", .str "JUEVES", some 15, .nan, none, none⟩]
        [⟨.str "A1", .str "Ana", .str "LUNES", .str "abc", .nan, .nan, .nan⟩]).1 =
        [⟨.str "A4", .str "Eva", .str "JUEVES", some 15, .nan, none, none⟩]) ∧
    (∀ n, (sync_files_to_db
        [⟨.str "A4", .str "Eva", .str "JUEVES", some 15, .nan, none, none⟩]
        [⟨.str "A1", .str "Ana", .str "LUNES", .str "abc", .nan, .nan, .nan⟩]).2 = .ok n →
      ∃ rows, convRows [⟨.str "A1", .str "Ana", .str "LUNES", .str "abc", .nan, .nan, .nan⟩] =
          .ok rows ∧
        (sync_files_to_db
          [⟨.str "A4", .str "Eva", .str "JUEVES", some 15, .nan, none, none⟩]
          [⟨.str "A1", .str "Ana", .str "LUNES", .str "abc", .nan, .nan, .nan⟩]).1 = rows) :=
  sync_transaction_atomic _ _

/-- C7 (confirmed): applying the same convertible batch twice with the
replace semantics yields the same final stored table as applying it once —
each application truncates and re-inserts exactly the converted batch. -/
theorem sync_idempotent (committed : List DbRow) (df : List FileRow)
    (rows : List DbRow) (h : convRows df = .ok rows) :
    (sync_files_to_db ((sync_files_to_db committed df).1) df).1 =
      (sync_files_to_db committed df).1 := by
  unfold sync_files_to_db
  rw [h]

theorem sync_idempotent_witness :
    (sync_files_to_db
        ((sync_files_to_db
          [⟨.str "A5", .str "Luz", .str "VIERNES", some 5, .nan, none, none⟩]
          [⟨.str "A1", .str "Juan", .str "LUNES", .num 100, .str "981112233", .num 1, .num 2⟩]).1)
        [⟨.str "A1", .str "Juan", .str "LUNES", .num 100, .str "981112233", .num 1, .num 2⟩]).1 =
      (sync_files_to_db
        [⟨.str "A5", .str "Luz", .str "VIERNES", some 5, .nan, none, none⟩]
        [⟨.str "A1", .str "Juan", .str "LUNES", .num 100, .str "981112233", .num 1, .num 2⟩]).1 :=
  sync_idempotent _ _
    [⟨.str "A1", .str "Juan", .str "LUNES", some 100, .str "981112233", some 1, some 2⟩]
    (by rfl)

/-! ## Lemmas about `pyMin` (Python `min(-, key=-)`) -/

/-- The scan of `min` stays inside the scanned elements. -/
theorem foldlMin_mem (key : String → Int) (l : List String) (b : String) :
    l.foldl (fun best x => if key x < key best then x else best) b ∈ b :: l := by
  induction l generalizing b with
  | nil => simp
  | cons c t ih =>
      simp only [List.foldl_cons]
      by_cases h : key c < key b
      · rw [if_pos h]
        rcases List.mem_cons.mp (ih c) with h1 | h1
        · rw [h1]; exact List.mem_cons_of_mem _ (List.mem_cons_self _ _)
        · exact List.mem_cons_of_mem _ (List.mem_cons_of_mem _ h1)
      · rw [if_neg h]
        rcases List.mem_cons.mp (ih b) with h1 | h1
        · rw [h1]; exact List.mem_cons_self _ _
        · exact List.mem_cons_of_mem _ (List.mem_cons_of_mem _ h1)

/-- The scan of `min` reaches a minimal key. -/
theorem foldlMin_le (key : String → Int) (l : List String) (b : String) :
    ∀ x ∈ b :: l,
      key (l.foldl (fun best x => if key x < key best then x else best) b) ≤ key x := by
  induction l generalizing b with
  | nil => intro x hx; rcases List.mem_singleton.mp hx with rfl; exact le_refl _
  | cons c t ih =>
      intro x hx
      simp only [List.foldl_cons]
      have hb' : key (if key c < key b then c else b) ≤ key b ∧
          key (if key c < key b then c else b) ≤ key c := by
        by_cases h : key c < key b
        · rw [if_pos h]; exact ⟨le_of_lt h, le_refl _⟩
        · rw [if_neg h]; exact ⟨le_refl _, le_of_not_lt h⟩
      have hr := ih (if key c < key b then c else b)
      have hrb' := hr _ (List.mem_cons_self _ _)
      rcases List.mem_cons.mp hx with rfl | hx1
      · exact le_trans hrb' hb'.1
      rcases List.mem_cons.mp hx1 with rfl | hx2
      · exact le_trans hrb' hb'.2
      · exact hr _ (List.mem_cons_of_mem _ hx2)

/-- The scan of `min` keeps the first minimum: every element strictly
before the result has a strictly larger key. -/
theorem foldlMin_first (key : String → Int) (l : List String) (b : String) :
    ∃ l1 l2, b :: l =
        l1 ++ (l.foldl (fun best x => if key x < key best then x else best) b) :: l2 ∧
      ∀ x ∈ l1,
        key (l.foldl (fun best x => if key x < key best then x else best) b) < key x := by
  induction l generalizing b with
  | nil => exact ⟨[], [], rfl, by simp⟩
  | cons c t ih =>
      simp only [List.foldl_cons]
      by_cases h : key c < key b
      · rw [if_pos h]
        obtain ⟨l1, l2, heq, hlt⟩ := ih c
        have hle : key (t.foldl (fun best x => if key x < key best then x else best) c) ≤
            key c := foldlMin_le key t c c (List.mem_cons_self _ _)
        refine ⟨b :: l1, l2, ?_, ?_⟩
        · rw [List.cons_append, ← heq]
        · intro x hx
          rcases List.mem_cons.mp hx with rfl | hx1
          · exact lt_of_le_of_lt hle h
          · exact hlt x hx1
      · rw [if_neg h]
        set r := t.foldl (fun best x => if key x < key best then x else best) b with hr
        obtain ⟨l1, l2, heq, hlt⟩ := ih b
        rw [← hr] at heq hlt
        cases l1 with
        | nil =>
            simp only [List.nil_append, List.cons.injEq] at heq
            refine ⟨[], c :: t, ?_, by simp⟩
            simp only [List.nil_append]
            rw [← heq.1]
        | cons y l1' =>
            simp only [List.cons_append, List.cons.injEq] at heq
            refine ⟨b :: c :: l1', l2, ?_, ?_⟩
            · rw [List.cons_append, List.cons_append, heq.2]
            · intro x hx
              have hrb : key r < key b := by
                rw [heq.1]
                exact hlt y (List.mem_cons_self _ _)
              rcases List.mem_cons.mp hx with rfl | hx1
              · exact hrb
              rcases List.mem_cons.mp hx1 with rfl | hx2
              · exact lt_of_lt_of_le hrb (le_of_not_lt h)
              · exact hlt x (List.mem_cons_of_mem _ hx2)

/-- Full specification of Python `min` on a non-empty list: the result is a
member, its key is minimal, and every element strictly before it has a
strictly larger key (first minimum wins). -/
theorem pyMin_spec (key : String → Int) (l : List String) (hl : l ≠ []) :
    pyMin key l ∈ l ∧ (∀ x ∈ l, key (pyMin key l) ≤ key x) ∧
      ∃ l1 l2, l = l1 ++ pyMin key l :: l2 ∧ ∀ x ∈ l1, key (pyMin key l) < key x := by
  cases l with
  | nil => exact absurd rfl hl
  | cons c rest =>
      exact ⟨foldlMin_mem key rest c, foldlMin_le key rest c, foldlMin_first key rest c⟩

/-- The `min` key of the assignment equals the per-vehicle liters total:
with a non-empty store by definition, and with an empty store both are
constantly zero. -/
theorem asignarKey_eq_resumen (df : List PuntoRow) :
    asignarKey df = resumen df := by
  funext c
  unfold asignarKey
  cases hdf : df.isEmpty with
  | true => rw [List.isEmpty_iff.mp hdf]; rfl
  | false => rfl

/-- The liters totals only read the vehicle and liters columns. -/
theorem resumen_eq_sumPairs (df : List PuntoRow) (c : String) :
    resumen df c =
      (((df.map (fun r => (r.id_camion, r.litros))).filter
        (fun x => x.1 = c)).map Prod.snd).sum := by
  induction df with
  | nil => rfl
  | cons r t ih =>
      simp only [resumen, List.map_cons, List.filter_cons] at *
      by_cases h : r.id_camion = c
      · simp [h, ih]
      · simp [h, ih]

/-- C8 (confirmed): without any forced vehicle, `registrar_nuevo_punto`
assigns the vehicle of `CAMIONES_VALIDOS` whose summed stored liters is
minimal (the earliest listed on ties), the choice does not depend on the new
point at all — in particular not on its latitude/longitude — and the
appended row always carries day `"LUNES"` whatever day the caller sent. -/
theorem registrar_assigns_min_liters_vehicle (df : List PuntoRow) (punto : Punto) :
    (registrar_nuevo_punto df punto).1 ∈ CAMIONES_VALIDOS ∧
    (∀ c ∈ CAMIONES_VALIDOS,
      resumen df (registrar_nuevo_punto df punto).1 ≤ resumen df c) ∧
    (∃ l1 l2, CAMIONES_VALIDOS = l1 ++ (registrar_nuevo_punto df punto).1 :: l2 ∧
      ∀ c ∈ l1, resumen df (registrar_nuevo_punto df punto).1 < resumen df c) ∧
    (∀ p2 : Punto, (registrar_nuevo_punto df p2).1 = (registrar_nuevo_punto df punto).1) ∧
    (∃ fila, (registrar_nuevo_punto df punto).2 = df ++ [fila] ∧
      fila.id_camion = (registrar_nuevo_punto df punto).1 ∧ fila.dia = "LUNES") := by
  have h1 : (registrar_nuevo_punto df punto).1 = pyMin (resumen df) CAMIONES_VALIDOS := by
    show pyMin (asignarKey df) CAMIONES_VALIDOS = _
    rw [asignarKey_eq_resumen]
  have hspec := pyMin_spec (resumen df) CAMIONES_VALIDOS (by decide)
  rw [h1]
  refine ⟨hspec.1, hspec.2.1, hspec.2.2, fun p2 => ?_, ?_⟩
  · show pyMin (asignarKey df) CAMIONES_VALIDOS = _
    rw [asignarKey_eq_resumen]
  · exact ⟨_, rfl, h1, rfl⟩

theorem registrar_assigns_min_liters_vehicle_witness :
    ((registrar_nuevo_punto
        [⟨"A2", "", "", "MARTES", "Ref", "", "", 100, some 0, some 0⟩]
        ⟨"Nuevo", 50, 0, 0, none, none, some "JUEVES", none⟩).1 ∈ CAMIONES_VALIDOS ∧
    (∀ c ∈ CAMIONES_VALIDOS,
      resumen [⟨"A2", "", "", "MARTES", "Ref", "", "", 100, some 0, some 0⟩]
          (registrar_nuevo_punto
            [⟨"A2", "", "", "MARTES", "Ref", "", "", 100, some 0, some 0⟩]
            ⟨"Nuevo", 50, 0, 0, none, none, some "JUEVES", none⟩).1 ≤
        resumen [⟨"A2", "", "", "MARTES", "Ref", "", "", 100, some 0, some 0⟩] c) ∧
    (∃ l1 l2, CAMIONES_VALIDOS = l1 ++ (registrar_nuevo_punto
        [⟨"A2", "", "", "MARTES", "Ref", "", "", 100, some 0, some 0⟩]
        ⟨"Nuevo", 50, 0, 0, none, none, some "JUEVES", none⟩).1 :: l2 ∧
      ∀ c ∈ l1,
        resumen [⟨"A2", "", "", "MARTES", "Ref", "", "", 100, some 0, some 0⟩]
            (registrar_nuevo_punto
              [⟨"A2", "", "", "MARTES", "Ref", "", "", 100, some 0, some 0⟩]
              ⟨"Nuevo", 50, 0, 0, none, none, some "JUEVES", none⟩).1 <
          resumen [⟨"A2", "", "", "MARTES", "Ref", "", "", 100, some 0, some 0⟩] c) ∧
    (∀ p2 : Punto, (registrar_nuevo_punto
        [⟨"A2", "", "", "MARTES", "Ref", "", "", 100, some 0, some 0⟩] p2).1 =
      (registrar_nuevo_punto
        [⟨"A2", "", "", "MARTES", "Ref", "", "", 100, some 0, some 0⟩]
        ⟨"Nuevo", 50, 0, 0, none, none, some "JUEVES", none⟩).1) ∧
    (∃ fila, (registrar_nuevo_punto
        [⟨"A2", "", "", "MARTES", "Ref", "", "", 100, some 0, some 0⟩]
        ⟨"Nuevo", 50, 0, 0, none, none, some "JUEVES", none⟩).2 =
        [⟨"A2", "", "", "MARTES", "Ref", "", "", 100, some 0, some 0⟩] ++ [fila] ∧
      fila.id_camion = (registrar_nuevo_punto
        [⟨"A2", "", "", "MARTES", "Ref", "", "", 100, some 0, some 0⟩]
        ⟨"Nuevo", 50, 0, 0, none, none, some "JUEVES", none⟩).1 ∧
      fila.dia = "LUNES")) :=
  registrar_assigns_min_liters_vehicle _ _

/-- C1 (amended): the single-point registration never consults the
nearest-neighbour data.  The assigned vehicle is the first vehicle of
`CAMIONES_VALIDOS` with minimal summed stored liters, it depends only on the
(vehicle, liters) columns of the store — not on any coordinate and not on
the caller's input — and the stored day is the constant `"LUNES"`, never the
caller's or any candidate's day. -/
theorem registrar_assignment_ignores_coordinates (df : List PuntoRow) (p : Punto) :
    (registrar_nuevo_punto df p).1 = pyMin (resumen df) CAMIONES_VALIDOS ∧
    (∀ (df2 : List PuntoRow) (p2 : Punto),
        df2.map (fun r => (r.id_camion, r.litros)) =
          df.map (fun r => (r.id_camion, r.litros)) →
        (registrar_nuevo_punto df2 p2).1 = (registrar_nuevo_punto df p).1) ∧
    (∃ fila, (registrar_nuevo_punto df p).2 = df ++ [fila] ∧ fila.dia = "LUNES") := by
  have h1 : ∀ (d : List PuntoRow) (q : Punto),
      (registrar_nuevo_punto d q).1 = pyMin (resumen d) CAMIONES_VALIDOS := by
    intro d q
    show pyMin (asignarKey d) CAMIONES_VALIDOS = _
    rw [asignarKey_eq_resumen]
  refine ⟨h1 df p, fun df2 p2 h => ?_, ⟨_, rfl, rfl⟩⟩
  have hres : resumen df2 = resumen df := by
    funext c
    rw [resumen_eq_sumPairs, resumen_eq_sumPairs, h]
  rw [h1 df2 p2, h1 df p, hres]

theorem registrar_assignment_ignores_coordinates_witness :
    ((registrar_nuevo_punto
        [⟨"A3", "", "", "MIERCOLES", "Ref", "", "", 70, some 1, some 1⟩]
        ⟨"Casa", 20, 5, 5, none, none, none, none⟩).1 =
      pyMin (resumen [⟨"A3", "", "", "MIERCOLES", "Ref", "", "", 70, some 1, some 1⟩])
        CAMIONES_VALIDOS ∧
    (∀ (df2 : List PuntoRow) (p2 : Punto),
        df2.map (fun r => (r.id_camion, r.litros)) =
          ([⟨"A3", "", "", "MIERCOLES", "Ref", "", "", 70, some 1, some 1⟩] :
              List PuntoRow).map (fun r => (r.id_camion, r.litros)) →
        (registrar_nuevo_punto df2 p2).1 =
          (registrar_nuevo_punto
            [⟨"A3", "", "", "MIERCOLES", "Ref", "", "", 70, some 1, some 1⟩]
            ⟨"Casa", 20, 5, 5, none, none, none, none⟩).1) ∧
    (∃ fila, (registrar_nuevo_punto
        [⟨"A3", "", "", "MIERCOLES", "Ref", "", "", 70, some 1, some 1⟩]
        ⟨"Casa", 20, 5, 5, none, none, none, none⟩).2 =
        [⟨"A3", "", "", "MIERCOLES", "Ref", "", "", 70, some 1, some 1⟩] ++ [fila] ∧
      fila.dia = "LUNES")) :=
  registrar_assignment_ignores_coordinates _ _

/-- C1 counterexample: a store with a single candidate point, assigned
vehicle `"A2"` and day `"MARTES"`, at the exact coordinates of the new
point.  The claim predicts that the registration inherits `"A2"` and
(absent a caller day) `"MARTES"`; the code assigns `"A1"` (least total
liters) and stores `"LUNES"`. -/
theorem nearest_neighbor_not_used_cex :
    specNearest [⟨"A2", "", "", "MARTES", "Ref", "", "", 100, some 0, some 0⟩] 0 0 =
      some ⟨"A2", "", "", "MARTES", "Ref", "", "", 100, some 0, some 0⟩ ∧
    (registrar_nuevo_punto
        [⟨"A2", "", "", "MARTES", "Ref", "", "", 100, some 0, some 0⟩]
        ⟨"Nuevo", 50, 0, 0, none, none, none, none⟩).1 = "A1" ∧
    (registrar_nuevo_punto
        [⟨"A2", "", "", "MARTES", "Ref", "", "", 100, some 0, some 0⟩]
        ⟨"Nuevo", 50, 0, 0, none, none, none, none⟩).2 =
      [⟨"A2", "", "", "MARTES", "Ref", "", "", 100, some 0, some 0⟩,
       ⟨"A1", "", "", "LUNES", "Nuevo", "", "", 50, some 0, some 0⟩] ∧
    ("A1" : String) ≠ "A2" ∧ ("LUNES" : String) ≠ "MARTES" := by
  exact ⟨rfl, rfl, rfl, by decide, by decide⟩

/-! ## Lemmas about the bulk redistribution -/

/-- Assigning a key makes its value readable. -/
theorem getVal_setKey_same (rec : Rec) (k : String) (v : Cell) :
    getVal (setKey rec k v) k = some v := by
  induction rec with
  | nil => simp [setKey, getVal]
  | cons kv t ih =>
      by_cases h : kv.1 = k
      · simp [setKey, getVal, h]
      · simp [setKey, getVal, h, ih]

/-- Assigning a key leaves every other key's value unchanged. -/
theorem getVal_setKey_ne (rec : Rec) (k v : _) (k' : String) (h : k' ≠ k) :
    getVal (setKey rec k v) k' = getVal rec k' := by
  induction rec with
  | nil => simp [setKey, getVal, Ne.symm h]
  | cons kv t ih =>
      by_cases hh : kv.1 = k
      · simp [setKey, getVal, hh, Ne.symm h]
      · simp [setKey, getVal, hh, ih]

theorem redistribuirAux_length (pick : Nat → Fin camiones_disponibles.length)
    (df : List Rec) : ∀ j, (redistribuirAux pick j df).length = df.length := by
  induction df with
  | nil => intro j; rfl
  | cons r t ih => intro j; simp [redistribuirAux, ih (j + 1)]

theorem redistribuirAux_getElem (pick : Nat → Fin camiones_disponibles.length)
    (df : List Rec) : ∀ j i, (redistribuirAux pick j df)[i]? =
      (df[i]?).map (fun r =>
        setKey r "camion_asignado" (.str (camiones_disponibles.get (pick (j + i))))) := by
  induction df with
  | nil => intro j i; simp [redistribuirAux]
  | cons r t ih =>
      intro j i
      cases i with
      | zero => simp [redistribuirAux]
      | succ n =>
          have harith : j + 1 + n = j + (n + 1) := by omega
          simp only [redistribuirAux, List.getElem?_cons_succ, ih (j + 1) n, harith]

/-- C9 (confirmed): every output record of the bulk redistribution carries a
`camion_asignado` drawn from the fixed vehicle list, and every other field
equals the corresponding field of the input row.  `random.choice` is
modelled by the index oracle `pick`, whose values range over the list by
type. -/
theorem redistribuir_assigns_valid_vehicle
    (pick : Nat → Fin camiones_disponibles.length) (df : List Rec) :
    (redistribuir_puntos pick df).length = df.length ∧
    ∀ i r, df[i]? = some r →
      ∃ s, (redistribuir_puntos pick df)[i]? = some s ∧
        getVal s "camion_asignado" =
          some (.str (camiones_disponibles.get (pick i))) ∧
        camiones_disponibles.get (pick i) ∈ camiones_disponibles ∧
        ∀ k, k ≠ "camion_asignado" → getVal s k = getVal r k := by
  constructor
  · exact redistribuirAux_length pick df 0
  · intro i r hr
    have hg := redistribuirAux_getElem pick df 0 i
    rw [hr] at hg
    simp only [Nat.zero_add, Option.map_some] at hg
    refine ⟨_, hg, getVal_setKey_same _ _ _, List.get_mem _ _ (pick i).2, ?_⟩
    intro k hk
    exact getVal_setKey_ne _ _ _ _ hk

theorem redistribuir_assigns_valid_vehicle_witness :
    (redistribuir_puntos (fun _ => ⟨1, by decide⟩)
        [[("nombre", .str "X"), ("litros", .num 30)]]).length =
      ([[("nombre", .str "X"), ("litros", .num 30)]] : List Rec).length ∧
    ∀ i r, ([[("nombre", .str "X"), ("litros", .num 30)]] : List Rec)[i]? = some r →
      ∃ s, (redistribuir_puntos (fun _ => ⟨1, by decide⟩)
          [[("nombre", .str "X"), ("litros", .num 30)]])[i]? = some s ∧
        getVal s "camion_asignado" =
          some (.str (camiones_disponibles.get ((fun _ => ⟨1, by decide⟩ :
            Nat → Fin camiones_disponibles.length) i))) ∧
        camiones_disponibles.get ((fun _ => ⟨1, by decide⟩ :
            Nat → Fin camiones_disponibles.length) i) ∈ camiones_disponibles ∧
        ∀ k, k ≠ "camion_asignado" → getVal s k = getVal r k :=
  redistribuir_assigns_valid_vehicle _ _

/-! ## Lemmas about the base64 helpers -/

theorem b64Inv_b64Tbl (n : Nat) (h : n < 64) : b64Inv (b64Tbl n) = some n := by
  unfold b64Tbl b64Inv
  split_ifs <;> first
    | (exact congrArg some (by omega))
    | (exfalso; omega)

theorem b64Tbl_ne_61 (n : Nat) : b64Tbl n ≠ 61 := by
  unfold b64Tbl; split_ifs <;> omega

theorem b64Tbl_ne_46 (n : Nat) : b64Tbl n ≠ 46 := by
  unfold b64Tbl; split_ifs <;> omega

/-- Encoded text never contains the `.` separator. -/
theorem b64e_ne_46 : ∀ (l : List Nat), ∀ x ∈ b64e l, x ≠ 46
  | [] => by simp [b64e]
  | [a] => by
      intro x hx
      simp only [b64e, List.mem_cons, List.not_mem_nil, or_false] at hx
      rcases hx with rfl | rfl <;> exact b64Tbl_ne_46 _
  | [a, b] => by
      intro x hx
      simp only [b64e, List.mem_cons, List.not_mem_nil, or_false] at hx
      rcases hx with rfl | rfl | rfl <;> exact b64Tbl_ne_46 _
  | a :: b :: c :: rest => by
      intro x hx
      simp only [b64e, List.mem_cons] at hx
      rcases hx with rfl | rfl | rfl | rfl | hx
      · exact b64Tbl_ne_46 _
      · exact b64Tbl_ne_46 _
      · exact b64Tbl_ne_46 _
      · exact b64Tbl_ne_46 _
      · exact b64e_ne_46 rest x hx

theorem b64DecPadded_two (a : Nat) (ha : a < 256) :
    b64DecPadded [b64Tbl (a / 4), b64Tbl (a % 4 * 16), 61, 61] = some [a] := by
  have h1 : b64Inv (b64Tbl (a / 4)) = some (a / 4) := b64Inv_b64Tbl _ (by omega)
  have h2 : b64Inv (b64Tbl (a % 4 * 16)) = some (a % 4 * 16) := b64Inv_b64Tbl _ (by omega)
  simp [b64DecPadded, h1, h2]
  omega

theorem b64DecPadded_three (a b : Nat) (ha : a < 256) (hb : b < 256) :
    b64DecPadded [b64Tbl (a / 4), b64Tbl (a % 4 * 16 + b / 16),
      b64Tbl (b % 16 * 4), 61] = some [a, b] := by
  have h1 : b64Inv (b64Tbl (a / 4)) = some (a / 4) := b64Inv_b64Tbl _ (by omega)
  have h2 : b64Inv (b64Tbl (a % 4 * 16 + b / 16)) = some (a % 4 * 16 + b / 16) :=
    b64Inv_b64Tbl _ (by omega)
  have h3 : b64Inv (b64Tbl (b % 16 * 4)) = some (b % 16 * 4) :=
    b64Inv_b64Tbl _ (by omega)
  simp [b64DecPadded, h1, h2, h3, b64Tbl_ne_61]
  omega

theorem b64DecPadded_quad (a b c : Nat) (rest : List Nat)
    (ha : a < 256) (hb : b < 256) (hc : c < 256) :
    b64DecPadded (b64Tbl (a / 4) :: b64Tbl (a % 4 * 16 + b / 16) ::
        b64Tbl (b % 16 * 4 + c / 64) :: b64Tbl (c % 64) :: rest) =
      (b64DecPadded rest).map (fun t => a :: b :: c :: t) := by
  have h1 : b64Inv (b64Tbl (a / 4)) = some (a / 4) := b64Inv_b64Tbl _ (by omega)
  have h2 : b64Inv (b64Tbl (a % 4 * 16 + b / 16)) = some (a % 4 * 16 + b / 16) :=
    b64Inv_b64Tbl _ (by omega)
  have h3 : b64Inv (b64Tbl (b % 16 * 4 + c / 64)) = some (b % 16 * 4 + c / 64) :=
    b64Inv_b64Tbl _ (by omega)
  have h4 : b64Inv (b64Tbl (c % 64)) = some (c % 64) := b64Inv_b64Tbl _ (by omega)
  have e1 : a / 4 * 4 + (a % 4 * 16 + b / 16) / 16 = a := by omega
  have e2 : (a % 4 * 16 + b / 16) % 16 * 16 + (b % 16 * 4 + c / 64) / 4 = b := by omega
  have e3 : (b % 16 * 4 + c / 64) % 4 * 64 + c % 64 = c := by omega
  simp only [b64DecPadded, h1, h2, h3, h4, e1, e2, e3]
  simp [b64Tbl_ne_61]

/-- The repository's urlsafe base64 helpers are mutually inverse on byte
strings. -/
theorem b64_roundtrip : ∀ (l : List Nat), (∀ x ∈ l, x < 256) → b64d (b64e l) = some l
  | [], _ => rfl
  | [a], h => by
      have ha : a < 256 := h a (by simp)
      exact b64DecPadded_two a ha
  | [a, b], h => by
      have ha : a < 256 := h a (by simp)
      have hb : b < 256 := h b (by simp)
      exact b64DecPadded_three a b ha hb
  | a :: b :: c :: rest, h => by
      have ha : a < 256 := h a (by simp)
      have hb : b < 256 := h b (by simp)
      have hc : c < 256 := h c (by simp)
      have ih := b64_roundtrip rest (fun x hx => h x (by simp [hx]))
      have hmod : (4 - (b64e (a :: b :: c :: rest)).length % 4) % 4 =
          (4 - (b64e rest).length % 4) % 4 := by
        simp only [b64e, List.length_cons]
        omega
      show b64DecPadded (b64e (a :: b :: c :: rest) ++
        List.replicate ((4 - (b64e (a :: b :: c :: rest)).length % 4) % 4) 61) = _
      rw [hmod]
      have hcons : b64e (a :: b :: c :: rest) =
          b64Tbl (a / 4) :: b64Tbl (a % 4 * 16 + b / 16) ::
            b64Tbl (b % 16 * 4 + c / 64) :: b64Tbl (c % 64) :: b64e rest := rfl
      rw [hcons]
      simp only [List.cons_append]
      rw [b64DecPadded_quad a b c _ ha hb hc]
      have hd : b64DecPadded (b64e rest ++
          List.replicate ((4 - (b64e rest).length % 4) % 4) 61) = some rest := ih
      rw [hd]
      rfl

theorem splitDots_of_ne_46 (l : List Nat) (h : ∀ x ∈ l, x ≠ 46) :
    splitDots l = [l] := by
  induction l with
  | nil => rfl
  | cons c t ih =>
      have hc : c ≠ 46 := h c (by simp)
      simp only [splitDots, if_neg hc, ih (fun x hx => h x (by simp [hx]))]

theorem splitDots_append_sep (a r : List Nat) (h : ∀ x ∈ a, x ≠ 46) :
    splitDots (a ++ 46 :: r) = a :: splitDots r := by
  induction a with
  | nil => simp [splitDots]
  | cons c t ih =>
      have hc : c ≠ 46 := h c (by simp)
      simp only [List.cons_append, splitDots, if_neg hc, List.append_eq,
        ih (fun x hx => h x (by simp [hx]))]

/-- Splitting a well-formed three-part token recovers the parts. -/
theorem splitDots_token (hb pb sb : List Nat)
    (h1 : ∀ x ∈ hb, x ≠ 46) (h2 : ∀ x ∈ pb, x ≠ 46) (h3 : ∀ x ∈ sb, x ≠ 46) :
    splitDots (hb ++ 46 :: (pb ++ 46 :: sb)) = [hb, pb, sb] := by
  rw [splitDots_append_sep _ _ h1, splitDots_append_sep _ _ h2,
    splitDots_of_ne_46 _ h3]

/-- C10 (confirmed): (i) decoding an encoded token before its expiry
returns the payload extended with the `exp` claim, for any JSON
serializer/parser pair that round-trips the payload and any deterministic
digest; (ii) a token whose signature part does not base64-decode to the
HMAC digest of its first two parts is always rejected with the 401 error —
as is any token without exactly three parts. -/
theorem jwt_decode_encode (dumps : Payload → List Nat)
    (loads : List Nat → Option Payload) (mac : List Nat → List Nat)
    (tEnc tDec : Int) (p : Payload) (e : Int)
    (hloads : loads (dumps (withExp tEnc p)) = some (withExp tEnc p))
    (hdb : ∀ x ∈ dumps (withExp tEnc p), x < 256)
    (hmb : ∀ x ∈ mac (b64e headerBytes ++ 46 :: b64e (dumps (withExp tEnc p))), x < 256)
    (hexp : pyExpInt (withExp tEnc p) = some e)
    (htime : tDec ≤ e) :
    jwt_decode loads mac tDec (jwt_encode dumps mac tEnc p) =
      .ok (withExp tEnc p) ∧
    ∀ token, (∀ hb pb sb, splitDots token = [hb, pb, sb] →
        b64d sb ≠ some (mac (hb ++ 46 :: pb))) →
      jwt_decode loads mac tDec token = .error () := by
  constructor
  · simp only [jwt_encode, jwt_decode]
    rw [List.append_assoc, List.cons_append,
      splitDots_token _ _ _ (b64e_ne_46 _) (b64e_ne_46 _) (b64e_ne_46 _)]
    simp only [b64_roundtrip _ hmb, b64_roundtrip _ hdb, hloads, hexp,
      if_pos rfl]
    have hlt : ¬(tDec > e) := by omega
    rw [if_neg hlt, if_pos trivial]
  · intro token htam
    unfold jwt_decode
    match hsp : splitDots token with
    | [] => rfl
    | [_] => rfl
    | [_, _] => rfl
    | [hb, pb, sb] =>
        have hne := htam hb pb sb hsp
        cases hb64 : b64d sb with
        | none => simp [hb64]
        | some sig =>
            have hmac : mac (hb ++ 46 :: pb) ≠ sig := by
              intro hEq
              exact hne (by rw [hb64, hEq])
            simp [hb64, if_neg hmac]
    | _ :: _ :: _ :: _ :: _ => rfl

theorem jwt_decode_encode_witness :
    jwt_decode
        (fun _ => some (withExp 0 [("sub", JVal.jstr "admin"), ("rol", JVal.jstr "admin")]))
        (fun _ => [66]) 0
        (jwt_encode (fun _ => [65]) (fun _ => [66]) 0
          [("sub", JVal.jstr "admin"), ("rol", JVal.jstr "admin")]) =
      .ok (withExp 0 [("sub", JVal.jstr "admin"), ("rol", JVal.jstr "admin")]) ∧
    ∀ token, (∀ hb pb sb, splitDots token = [hb, pb, sb] →
        b64d sb ≠ some (((fun _ => [66]) : List Nat → List Nat) (hb ++ 46 :: pb))) →
      jwt_decode
        (fun _ => some (withExp 0 [("sub", JVal.jstr "admin"), ("rol", JVal.jstr "admin")]))
        (fun _ => [66]) 0 token = .error () :=
  jwt_decode_encode (fun _ => [65])
    (fun _ => some (withExp 0 [("sub", JVal.jstr "admin"), ("rol", JVal.jstr "admin")]))
    (fun _ => [66]) 0 0 [("sub", JVal.jstr "admin"), ("rol", JVal.jstr "admin")] 43200
    rfl (by decide) (by decide) (by decide) (by decide)

end AguaRuta
